import Mathlib

/-!
# go-crawl-binance: verification development

Shallow embedding of the two programs of the repository:

* `CrawlFromFile` embeds `crawl_from_file/main.go` (archive URL enumeration and the
  bulk downloader);
* `CrawlFromApi` embeds `crawl_from_api/main.go` (backward pagination over the kline
  endpoint and CSV persistence).

Loops of the source that have no syntactic bound take a `fuel` argument and return
`none` (or an outcome-less run) when the fuel runs out before the loop exits.
-/

namespace CrawlFromFile

/-! ## Model of the parts of Go's `time` package the program uses

A `time.Time` in UTC is a day number counted from 0001-01-01 (proleptic Gregorian
calendar) together with the nanoseconds elapsed since midnight. The conversions
between day numbers and calendar dates follow the algorithms of the standard library
(`daysSinceEpoch`, `absDate`, `Date`), over unbounded integers. -/

/-- Leap year test, `time.isLeap`. -/
def isLeap (year : Int) : Bool :=
  year % 4 == 0 && (year % 100 != 0 || year % 400 == 0)

/-- Table `time.daysBefore`: number of days in a non-leap year before month `m + 1`. -/
def daysBefore (m : Int) : Int :=
  if m = 0 then 0 else if m = 1 then 31 else if m = 2 then 59 else if m = 3 then 90
  else if m = 4 then 120 else if m = 5 then 151 else if m = 6 then 181
  else if m = 7 then 212 else if m = 8 then 243 else if m = 9 then 273
  else if m = 10 then 304 else if m = 11 then 334 else 365

/-- Days from 0001-01-01 to January 1 of `year`, `time.daysSinceEpoch`. -/
def daysSinceEpoch (year : Int) : Int :=
  let y := year - 1
  let n400 := y / 400
  let y := y - 400 * n400
  let n100 := y / 100
  let y := y - 100 * n100
  let n4 := y / 4
  let y := y - 4 * n4
  146097 * n400 + 36524 * n100 + 1461 * n4 + 365 * y

/-- Year and zero-based day of the year of a day number: the cycle-cutting part of
`time.absDate`. -/
def absYear (d : Int) : Int × Int :=
  let n400 := d / 146097
  let d := d - 146097 * n400
  let n100 := d / 36524
  let n100 := n100 - n100 / 4
  let d := d - 36524 * n100
  let n4 := d / 1461
  let d := d - 1461 * n4
  let n := d / 365
  let n := n - n / 4
  let d := d - 365 * n
  (400 * n400 + 100 * n100 + 4 * n4 + n + 1, d)

/-- A calendar date. -/
structure Civil where
  year : Int
  month : Int
  day : Int
deriving DecidableEq, Repr

/-- Month and day of the month from the year and the day of the year counted as in a
non-leap year: the month estimate of `time.absDate` and its adjustment. -/
def monthDayCommon (year day : Int) : Civil :=
  let month := day / 31
  let stop := daysBefore (month + 1)
  if day ≥ stop then
    { year := year, month := month + 2, day := day - stop + 1 }
  else
    { year := year, month := month + 1, day := day - daysBefore month + 1 }

/-- Month and day of the month from the year and the zero-based day of the year: the
second half of `time.absDate`, where the leap day is handled first. -/
def monthDay (year yday : Int) : Civil :=
  if isLeap year && yday == 31 + 29 - 1 then
    { year := year, month := 2, day := 29 }
  else
    monthDayCommon year (if isLeap year && decide (yday > 31 + 29 - 1) then yday - 1 else yday)

/-- Calendar date of a day number, `time.absDate`. -/
def absDate (d : Int) : Civil :=
  monthDay (absYear d).1 (absYear d).2

/-- Day number of a calendar date whose month and day may lie outside their usual
ranges: the date part of `time.Date`, which normalises the month into the year and
lets the day overflow into the following months. -/
def dateToAbs (year month day : Int) : Int :=
  let m := month - 1
  let year := year + m / 12
  let m := m % 12
  let d := daysSinceEpoch year + daysBefore m
  let d := if isLeap year && m + 1 ≥ 3 then d + 1 else d
  d + (day - 1)

/-- A `time.Time` in UTC. -/
structure Time where
  /-- Days since 0001-01-01. -/
  absDay : Int
  /-- Nanoseconds since midnight, below `86400 * 10 ^ 9`. -/
  nsec : Nat
deriving DecidableEq, Repr

/-- Nanoseconds per day. -/
def nsecPerDay : Int := 86400 * 1000000000

/-- Constructor `time.Date(year, month, day, hour, min, sec, nsec, time.UTC)`. -/
def Time.Date (year month day hour min sec nsec : Int) : Time :=
  let clock := ((hour * 60 + min) * 60 + sec) * 1000000000 + nsec
  { absDay := dateToAbs year month day + clock / nsecPerDay
    nsec := (clock % nsecPerDay).toNat }

/-- Comparison `t.After(u)`. -/
def Time.After (t u : Time) : Bool :=
  decide (t.absDay > u.absDay) || (decide (t.absDay = u.absDay) && decide (t.nsec > u.nsec))

/-- Method `t.AddDate(years, months, days)`: the calendar date of `t` is shifted
field by field and renormalised by `Date`, the clock is kept. -/
def Time.AddDate (t : Time) (years months days : Int) : Time :=
  let c := absDate t.absDay
  { absDay := dateToAbs (c.year + years) (c.month + months) (c.day + days)
    nsec := t.nsec }

/-- Left padding with zeros up to `width` characters. -/
def zeroPad (width : Nat) (digits : String) : String :=
  String.mk (List.replicate (width - digits.length) '0') ++ digits

/-- Decimal rendering `time.appendInt(b, x, width)`. -/
def appendInt (x : Int) (width : Nat) : String :=
  (if x < 0 then "-" else "") ++ zeroPad width (Nat.repr x.natAbs)

/-- Rendering `t.Format("2006-01")`. -/
def Time.FormatYearMonth (t : Time) : String :=
  let c := absDate t.absDay
  appendInt c.year 4 ++ "-" ++ appendInt c.month 2

/-- Rendering `t.Format("2006-01-02")`. -/
def Time.FormatDate (t : Time) : String :=
  let c := absDate t.absDay
  appendInt c.year 4 ++ "-" ++ appendInt c.month 2 ++ "-" ++ appendInt c.day 2

/-! ## `crawl_from_file/main.go` -/

def baseURLMonthly : String := "https://data.binance.vision/data/spot/monthly/klines/"

def baseURLDaily : String := "https://data.binance.vision/data/spot/daily/klines/"

def baseDir : String := "static"

/-- Loop of `generateMonthlyURLs`; `none` when the fuel runs out. -/
def generateMonthlyURLsLoop (symbol interval baseURL : String) (endDate : Time) :
    Nat → List String → Time → Option (List String)
  | 0, _, _ => none
  | fuel + 1, urls, currentDate =>
    if !currentDate.After endDate then
      let yearMonth := currentDate.FormatYearMonth
      let url := baseURL ++ symbol ++ "-" ++ interval ++ "-" ++ yearMonth ++ ".zip"
      generateMonthlyURLsLoop symbol interval baseURL endDate fuel (urls ++ [url])
        (currentDate.AddDate 0 1 0)
    else
      some urls

/-- Function `generateMonthlyURLs`. -/
def generateMonthlyURLs (fuel : Nat) (symbol interval : String) (startDate endDate : Time) :
    Option (List String) :=
  let baseURL := baseURLMonthly ++ symbol ++ "/" ++ interval ++ "/"
  generateMonthlyURLsLoop symbol interval baseURL endDate fuel [] startDate

/-- Loop of `generateDailyURLs`; `none` when the fuel runs out. -/
def generateDailyURLsLoop (symbol interval baseURL : String) (endDate : Time) :
    Nat → List String → Time → Option (List String)
  | 0, _, _ => none
  | fuel + 1, urls, currentDate =>
    if !currentDate.After endDate then
      let dateStr := currentDate.FormatDate
      let url := baseURL ++ symbol ++ "-" ++ interval ++ "-" ++ dateStr ++ ".zip"
      generateDailyURLsLoop symbol interval baseURL endDate fuel (urls ++ [url])
        (currentDate.AddDate 0 0 1)
    else
      some urls

/-- Function `generateDailyURLs`. -/
def generateDailyURLs (fuel : Nat) (symbol interval : String) (startDate endDate : Time) :
    Option (List String) :=
  let baseURL := baseURLDaily ++ symbol ++ "/" ++ interval ++ "/"
  generateDailyURLsLoop symbol interval baseURL endDate fuel [] startDate

/-! ### The bulk downloader -/

/-- Result of `http.Get(url)` as `downloadFile` observes it. -/
inductive FetchResult where
  /-- The call returns a non-nil error. -/
  | transportError (err : String)
  /-- The call returns a response: status code, status text, the bytes of the body
  that can be read, and the error that ends the reading, if any. -/
  | response (statusCode : Int) (status : String) (body : String) (readErr : Option String)
deriving DecidableEq, Repr

/-- The fetch fails: a transport error or a status other than 200. -/
def FetchResult.Fails : FetchResult → Prop
  | .transportError _ => True
  | .response statusCode _ _ _ => statusCode ≠ 200

/-- The environment of the downloader: the network, the file creation primitive and
the two `path/filepath` functions the program calls. -/
structure World where
  /-- Function `http.Get`. -/
  httpGet : String → FetchResult
  /-- Error returned by `os.Create` for a path, if any. -/
  osCreate : String → Option String
  /-- Function `filepath.Join`. -/
  filepathJoin : List String → String
  /-- Function `filepath.Base`. -/
  filepathBase : String → String

/-- The files written so far: path and content. -/
abbrev Files := List (String × String)

/-- Effect of a successful `os.Create(path)`: the file exists and is empty. -/
def createFile (path : String) (fs : Files) : Files :=
  (path, "") :: fs.filter (fun f => f.1 != path)

/-- Effect of `io.Copy(out, resp.Body)` on the file just created at `path`. -/
def copyTo (path body : String) (fs : Files) : Files :=
  (path, body) :: fs.filter (fun f => f.1 != path)

/-- Function `getSaveDir`. -/
def getSaveDir (w : World) (symbol interval : String) : String :=
  w.filepathJoin [baseDir, symbol, interval]

/-- Function `downloadFile`: the returned error (`none` for `nil`) and the files
afterwards. -/
def downloadFile (w : World) (url savePath : String) (fs : Files) : Option String × Files :=
  match w.httpGet url with
  | .transportError err => (some err, fs)
  | .response statusCode status body readErr =>
    if statusCode ≠ 200 then
      (some ("failed to download " ++ url ++ ": " ++ status), fs)
    else
      match w.osCreate savePath with
      | some err => (some err, fs)
      | none => (readErr, copyTo savePath body (createFile savePath fs))

/-- Function `processSymbolInterval`. One task is launched per URL and the function
waits for all of them; `schedule` gives the order in which the tasks take effect.
The error each task gets from `downloadFile` is dropped, the function returns `nil`
(`none`). The result is `none` when the fuel does not suffice for the enumeration. -/
def processSymbolInterval (w : World) (schedule : List String → List String) (fuel : Nat)
    (symbol interval : String) (startDate endDate : Time) (dataType : String) (fs : Files) :
    Option (Option String × Files) :=
  let saveDir := getSaveDir w symbol interval
  let enumerated :=
    if dataType = "monthly" then generateMonthlyURLs fuel symbol interval startDate endDate
    else generateDailyURLs fuel symbol interval startDate endDate
  match enumerated with
  | none => none
  | some urls =>
    let task := fun (fs : Files) (url : String) =>
      let fileName := w.filepathBase url
      let savePath := w.filepathJoin [saveDir, fileName]
      (downloadFile w url savePath fs).2
    some (none, (schedule urls).foldl task fs)

/-- An environment in which no archive can be fetched: the server is unreachable for
some URLs and answers 404 for the others. -/
def unreachableWorld : World where
  httpGet := fun url =>
    if url.length % 2 = 0 then .transportError "dial tcp: connection refused"
    else .response 404 "404 Not Found" "" none
  osCreate := fun _ => none
  filepathJoin := fun elems => "/".intercalate elems
  filepathBase := fun path => (path.splitOn "/").getLastD path

/-- The enumeration `processSymbolInterval` performs for a granularity. -/
def enumerateURLs (fuel : Nat) (symbol interval : String) (startDate endDate : Time)
    (dataType : String) : Option (List String) :=
  if dataType = "monthly" then generateMonthlyURLs fuel symbol interval startDate endDate
  else generateDailyURLs fuel symbol interval startDate endDate

end CrawlFromFile

namespace CrawlFromApi

/-! ## `crawl_from_api/main.go` -/

/-- Two's complement wrap-around of a 64-bit signed integer. -/
def wrap64 (x : Int) : Int :=
  (x + 9223372036854775808) % 18446744073709551616 - 9223372036854775808

/-- Conversion `int64(f)` of a `float64` whose integer part is `v`: the value when it
fits, the minimum `int64` otherwise (the result of the amd64 conversion; the language
leaves it implementation-dependent). -/
def int64OfFloat64 (v : Int) : Int :=
  if -9223372036854775808 ≤ v ∧ v < 9223372036854775808 then v else -9223372036854775808

structure Kline where
  OpenTime : Int
  Open : String
  High : String
  Low : String
  Close : String
  Volume : String
  CloseTime : Int
  QuoteAssetVolume : String
  NumberOfTrades : Int
  TakerBuyBaseAssetVolume : String
  TakerBuyQuoteAssetVolume : String
  Ignore : String
deriving DecidableEq, Repr

/-- A value of type `interface{}` produced by `json.Unmarshal`. A JSON number is a
`float64`; it is represented by its integer part, the only part the program uses:
every number is converted with `int64(...)` or `int(...)`, see `int64OfFloat64`. -/
inductive JSONValue where
  | number (v : Int)
  | string (s : String)
  | bool (b : Bool)
  | null
  | array
  | object
deriving DecidableEq, Repr

/-- The two run-time panics the decoding of a page element can raise. -/
inductive Panic where
  | indexOutOfRange
  | typeAssertion
deriving DecidableEq, Repr

/-- Indexing `k[i]`. -/
def index (k : List JSONValue) (i : Nat) : Except Panic JSONValue :=
  match k.get? i with
  | some v => .ok v
  | none => .error .indexOutOfRange

/-- Type assertion `v.(float64)`. -/
def assertFloat64 : JSONValue → Except Panic Int
  | .number v => .ok v
  | _ => .error .typeAssertion

/-- Type assertion `v.(string)`. -/
def assertString : JSONValue → Except Panic String
  | .string s => .ok s
  | _ => .error .typeAssertion

/-- Body of the `for _, k := range klines` loop up to the construction of the
`Kline`. -/
def decodeKline (k : List JSONValue) : Except Panic Kline := do
  let openTime := int64OfFloat64 (← assertFloat64 (← index k 0))
  let open_ ← assertString (← index k 1)
  let high ← assertString (← index k 2)
  let low ← assertString (← index k 3)
  let close ← assertString (← index k 4)
  let volume ← assertString (← index k 5)
  let closeTime := int64OfFloat64 (← assertFloat64 (← index k 6))
  let quoteAssetVolume ← assertString (← index k 7)
  let numberOfTrades := int64OfFloat64 (← assertFloat64 (← index k 8))
  let takerBuyBaseAssetVolume ← assertString (← index k 9)
  let takerBuyQuoteAssetVolume ← assertString (← index k 10)
  let ignore ← assertString (← index k 11)
  return {
    OpenTime := openTime
    Open := open_
    High := high
    Low := low
    Close := close
    Volume := volume
    CloseTime := closeTime
    QuoteAssetVolume := quoteAssetVolume
    NumberOfTrades := numberOfTrades
    TakerBuyBaseAssetVolume := takerBuyBaseAssetVolume
    TakerBuyQuoteAssetVolume := takerBuyQuoteAssetVolume
    Ignore := ignore }

/-- The `for _, k := range klines` loop: every element is decoded and appended to
`allKlines`. -/
def appendDecoded : List Kline → List (List JSONValue) → Except Panic (List Kline)
  | allKlines, [] => .ok allKlines
  | allKlines, k :: rest =>
    match decodeKline k with
    | .error p => .error p
    | .ok kline => appendDecoded (allKlines ++ [kline]) rest

/-- The value is a JSON number. -/
def isNumber : JSONValue → Bool
  | .number _ => true
  | _ => false

/-- The value is a JSON string. -/
def isString : JSONValue → Bool
  | .string _ => true
  | _ => false

/-- The value has the type expected at position `i` of a page element: a number at
positions 0, 6 and 8, a string at the others. -/
def expectedType (i : Nat) (v : JSONValue) : Bool :=
  if i = 0 ∨ i = 6 ∨ i = 8 then isNumber v else isString v

/-- A page element is malformed positionally: it has fewer than 12 fields, or one of its
first 12 fields has not the expected type. -/
def malformed (k : List JSONValue) : Bool :=
  (List.range 12).any (fun i =>
    match k.get? i with
    | some v => !expectedType i v
    | none => true)

/-- What reading and unmarshalling the body of a response gives. -/
inductive Body where
  /-- Function `ioutil.ReadAll` fails. -/
  | unreadable (err : String)
  /-- Function `json.Unmarshal` into `[][]interface{}` fails. -/
  | undecodable (err : String)
  /-- The body decodes as an array of arrays. -/
  | decoded (klines : List (List JSONValue))
deriving DecidableEq, Repr

/-- Result of `http.Get(url)` as `getBinanceKlines` observes it. -/
inductive HttpResult where
  | transportError (err : String)
  | response (statusCode : Int) (status : String) (body : Body)
deriving DecidableEq, Repr

/-- The query parameters of one request to the kline endpoint. -/
structure Request where
  symbol : String
  interval : String
  endTime : Int
  limit : Int
deriving DecidableEq, Repr

/-- The upstream service: the answer it gives to a request, given the number of
requests it has answered before. Every iteration of the loop issues a fresh `http.Get`,
and the service may answer the same request differently the next time. -/
abbrev Upstream := Nat → Request → HttpResult

/-- How a call of `getBinanceKlines` ends. -/
inductive Outcome where
  /-- Return `allKlines, nil`. -/
  | returned (klines : List Kline)
  /-- Return `nil, err`. -/
  | failed (err : String)
  /-- The goroutine panics: nothing is returned to the caller. -/
  | panicked (p : Panic)
deriving DecidableEq, Repr

/-- A run of `getBinanceKlines`: the requests issued, in order, and the way the call
ends (`none` when the loop is still running after `fuel` iterations). -/
structure Run where
  requests : List Request
  outcome : Option Outcome
deriving DecidableEq, Repr

/-- Records a request in front of the rest of the run. -/
def Run.after (req : Request) (r : Run) : Run :=
  { requests := req :: r.requests, outcome := r.outcome }

/-- The `for` loop of `getBinanceKlines`, from the state `allKlines`, `currentTime`,
after `sent` requests. -/
def getBinanceKlinesLoop (upstream : Upstream) (symbol interval : String) (fetchLimit : Int) :
    Nat → Nat → List Kline → Int → Run
  | 0, _, _, _ => { requests := [], outcome := none }
  | fuel + 1, sent, allKlines, currentTime =>
    let req : Request :=
      { symbol := symbol, interval := interval, endTime := currentTime, limit := fetchLimit }
    match upstream sent req with
    | .transportError err =>
      { requests := [req], outcome := some (.failed ("error fetching data: " ++ err)) }
    | .response statusCode status body =>
      if statusCode ≠ 200 then
        { requests := [req], outcome := some (.failed ("error fetching data: " ++ status)) }
      else
        match body with
        | .unreadable err =>
          { requests := [req]
            outcome := some (.failed ("error reading response body: " ++ err)) }
        | .undecodable err =>
          { requests := [req]
            outcome := some (.failed ("error unmarshalling response body: " ++ err)) }
        | .decoded klines =>
          if klines.length = 0 then
            { requests := [req], outcome := some (.returned allKlines) }
          else
            match appendDecoded allKlines klines with
            | .error p => { requests := [req], outcome := some (.panicked p) }
            | .ok allKlines =>
              match allKlines with
              | [] => { requests := [req], outcome := some (.panicked .indexOutOfRange) }
              | first :: _ =>
                Run.after req
                  (getBinanceKlinesLoop upstream symbol interval fetchLimit fuel (sent + 1)
                    allKlines (wrap64 (first.OpenTime - 1)))

/-- Function `getBinanceKlines`. -/
def getBinanceKlines (fuel : Nat) (upstream : Upstream) (symbol interval : String)
    (endTime : Int) (fetchLimit : Int) : Run :=
  getBinanceKlinesLoop upstream symbol interval fetchLimit fuel 0 [] endTime

/-- Decimal rendering `strconv.FormatInt(i, 10)`. -/
def formatInt (i : Int) : String :=
  if i < 0 then "-" ++ Nat.repr i.natAbs else Nat.repr i.natAbs

/-- The filesystem as `saveKlinesToCSV` observes it: the error, if any, of each
operation. -/
structure FileSystem where
  /-- Function `os.MkdirAll(folder, os.ModePerm)`. -/
  mkdirAll : String → Option String
  /-- Function `os.Create(filePath)`. -/
  create : String → Option String
  /-- The `i`-th call of `writer.Write` on the file. -/
  write : Nat → List String → Option String

/-- What a call of `saveKlinesToCSV` leaves behind: the returned error (`none` for
`nil`), the file created, if any, and the records written to it, in order. -/
structure Saved where
  err : Option String
  filePath : Option String
  records : List (List String)
deriving DecidableEq, Repr

def headers : List String := ["Open Time", "Open", "High", "Low", "Close", "Volume", "Close Time"]

/-- The `for _, k := range klines` loop of `saveKlinesToCSV`; `i` counts the calls of
`writer.Write` made so far. -/
def writeRows (fs : FileSystem) (filePath : String) :
    Nat → List Kline → List (List String) → Saved
  | _, [], records => { err := none, filePath := some filePath, records := records }
  | i, k :: rest, records =>
    let row := [formatInt k.OpenTime, k.Open, k.High, k.Low, k.Close, k.Volume,
      formatInt k.CloseTime]
    match fs.write i row with
    | some err =>
      { err := some ("error writing row to CSV file: " ++ err), filePath := some filePath
        records := records }
    | none => writeRows fs filePath (i + 1) rest (records ++ [row])

/-- Function `saveKlinesToCSV`. -/
def saveKlinesToCSV (fs : FileSystem) (klines : List Kline) (symbol interval folder : String) :
    Saved :=
  match fs.mkdirAll folder with
  | some err => { err := some ("error creating folder: " ++ err), filePath := none, records := [] }
  | none =>
    let filePath := folder ++ "/" ++ symbol ++ "_" ++ interval ++ ".csv"
    match fs.create filePath with
    | some err =>
      { err := some ("error creating CSV file: " ++ err), filePath := none, records := [] }
    | none =>
      match fs.write 0 headers with
      | some err =>
        { err := some ("error writing headers to CSV file: " ++ err), filePath := some filePath
          records := [] }
      | none => writeRows fs filePath 1 klines [headers]

/-! ### A well-behaved upstream

The upstream the contract of the crawler assumes: it holds a finite set of candles and
answers a request for `(cursor, limit)` with the `limit` newest candles whose `openTime`
is at most `cursor`, ordered oldest to newest. -/

/-- The positional encoding of a candle: the 12-element array of the endpoint. -/
def encodeKline (k : Kline) : List JSONValue :=
  [.number k.OpenTime, .string k.Open, .string k.High, .string k.Low, .string k.Close,
    .string k.Volume, .number k.CloseTime, .string k.QuoteAssetVolume,
    .number k.NumberOfTrades, .string k.TakerBuyBaseAssetVolume,
    .string k.TakerBuyQuoteAssetVolume, .string k.Ignore]

/-- The candles with `openTime` at most `cursor`, oldest first. -/
def eligible (candles : List Kline) (cursor : Int) : List Kline :=
  (candles.filter (fun k => decide (k.OpenTime ≤ cursor))).insertionSort
    (fun a b => a.OpenTime ≤ b.OpenTime)

/-- The page for `(cursor, limit)`: the `limit` newest eligible candles, oldest first.
-/
def servePage (candles : List Kline) (cursor : Int) (limit : Int) : List Kline :=
  let all := eligible candles cursor
  all.drop (all.length - limit.toNat)

/-- The well-behaved upstream holding `candles`: it answers every request from the
same set of candles. -/
def wellBehavedUpstream (candles : List Kline) : Upstream := fun _ req =>
  .response 200 "200 OK" (.decoded ((servePage candles req.endTime req.limit).map encodeKline))

/-- A sample candle opening at `openTime`. -/
def sampleCandle (openTime : Int) : Kline :=
  { OpenTime := openTime
    Open := "29000.10"
    High := "29500.00"
    Low := "28800.55"
    Close := "29300.00"
    Volume := "1520.75"
    CloseTime := openTime + 999
    QuoteAssetVolume := "44300000.00"
    NumberOfTrades := 4200
    TakerBuyBaseAssetVolume := "800.10"
    TakerBuyQuoteAssetVolume := "23300000.00"
    Ignore := "0" }

/-- An upstream that serves the candles opening at 1000 and 2000 as the well-behaved
upstream does, and has no candle left once it has answered three requests. -/
def withdrawingUpstream : Upstream := fun sent req =>
  if sent < 3 then wellBehavedUpstream [sampleCandle 1000, sampleCandle 2000] sent req
  else wellBehavedUpstream [] sent req

/-- The integer fields of a candle are integers that a `float64` holds exactly
(magnitude at most `2 ^ 53`), as their transport as JSON numbers requires; they fit
`int64` with room for `openTime - 1`. -/
def Kline.InRange (k : Kline) : Prop :=
  -9007199254740992 ≤ k.OpenTime ∧ k.OpenTime ≤ 9007199254740992 ∧
  -9007199254740992 ≤ k.CloseTime ∧ k.CloseTime ≤ 9007199254740992 ∧
  -9007199254740992 ≤ k.NumberOfTrades ∧ k.NumberOfTrades ≤ 9007199254740992

end CrawlFromApi

namespace CrawlFromFile

/-! ## The calendar conversions are inverse to each other -/

theorem daysSinceEpoch_parts (a b c e : Int) (hb : 0 ≤ b ∧ b ≤ 3) (hc : 0 ≤ c ∧ c ≤ 24)
    (he : 0 ≤ e ∧ e ≤ 3) :
    daysSinceEpoch (400 * a + 100 * b + 4 * c + e + 1) =
      146097 * a + 36524 * b + 1461 * c + 365 * e := by
  simp only [daysSinceEpoch]
  have h1 : (400 * a + 100 * b + 4 * c + e + 1 - 1) / 400 = a := by omega
  rw [h1]
  have h2 : (400 * a + 100 * b + 4 * c + e + 1 - 1 - 400 * a) / 100 = b := by omega
  rw [h2]
  have h3 : (400 * a + 100 * b + 4 * c + e + 1 - 1 - 400 * a - 100 * b) / 4 = c := by omega
  rw [h3]
  omega

theorem isLeap_parts (a b c e : Int) (hb : 0 ≤ b ∧ b ≤ 3) (hc : 0 ≤ c ∧ c ≤ 24)
    (he : 0 ≤ e ∧ e ≤ 3) :
    isLeap (400 * a + 100 * b + 4 * c + e + 1) = true ↔ (e = 3 ∧ (c ≠ 24 ∨ b = 3)) := by
  simp only [isLeap, Bool.and_eq_true, Bool.or_eq_true, beq_iff_eq, bne_iff_ne, ne_eq]
  omega

theorem absYear_spec (d : Int) :
    daysSinceEpoch (absYear d).1 + (absYear d).2 = d ∧ 0 ≤ (absYear d).2 ∧
    (absYear d).2 < 365 + (if isLeap (absYear d).1 then 1 else 0) := by
  obtain ⟨a, ha⟩ : ∃ a, a = d / 146097 := ⟨_, rfl⟩
  obtain ⟨d1, hd1⟩ : ∃ d1, d1 = d - 146097 * a := ⟨_, rfl⟩
  obtain ⟨b, hb⟩ : ∃ b, b = d1 / 36524 - d1 / 36524 / 4 := ⟨_, rfl⟩
  obtain ⟨d2, hd2⟩ : ∃ d2, d2 = d1 - 36524 * b := ⟨_, rfl⟩
  obtain ⟨c, hc⟩ : ∃ c, c = d2 / 1461 := ⟨_, rfl⟩
  obtain ⟨d3, hd3⟩ : ∃ d3, d3 = d2 - 1461 * c := ⟨_, rfl⟩
  obtain ⟨e, he⟩ : ∃ e, e = d3 / 365 - d3 / 365 / 4 := ⟨_, rfl⟩
  have hy : absYear d = (400 * a + 100 * b + 4 * c + e + 1, d3 - 365 * e) := by
    simp only [absYear]
    subst ha hd1 hb hd2 hc hd3 he
    rfl
  have hd1r : 0 ≤ d1 ∧ d1 < 146097 := by omega
  have hbr : 0 ≤ b ∧ b ≤ 3 := by omega
  have hd2r : 0 ≤ d2 ∧ d2 < 36525 ∧ (b ≠ 3 → d2 < 36524) := by omega
  have hcr : 0 ≤ c ∧ c ≤ 24 := by omega
  have hd3r : 0 ≤ d3 ∧ d3 < 1461 ∧ (c = 24 → b ≠ 3 → d3 < 1460) := by omega
  have her : 0 ≤ e ∧ e ≤ 3 := by omega
  rw [hy]
  simp only
  rw [daysSinceEpoch_parts a b c e hbr hcr her]
  refine ⟨by omega, by omega, ?_⟩
  by_cases hl : isLeap (400 * a + 100 * b + 4 * c + e + 1) = true
  · rw [if_pos hl]; omega
  · rw [if_neg hl]
    rw [isLeap_parts a b c e hbr hcr her] at hl
    omega

/-- A year has 365 days, or 366 when it is a leap year. -/
theorem daysSinceEpoch_succ (year : Int) :
    daysSinceEpoch (year + 1) = daysSinceEpoch year + 365 + (if isLeap year then 1 else 0) := by
  simp only [daysSinceEpoch, isLeap]
  split_ifs with h
  · simp at h
    omega
  · simp at h
    omega

theorem daysBefore_cases (m : Int) (h0 : 0 ≤ m) (h1 : m ≤ 12) :
    (m = 0 ∧ daysBefore m = 0) ∨ (m = 1 ∧ daysBefore m = 31) ∨ (m = 2 ∧ daysBefore m = 59) ∨
    (m = 3 ∧ daysBefore m = 90) ∨ (m = 4 ∧ daysBefore m = 120) ∨ (m = 5 ∧ daysBefore m = 151) ∨
    (m = 6 ∧ daysBefore m = 181) ∨ (m = 7 ∧ daysBefore m = 212) ∨ (m = 8 ∧ daysBefore m = 243) ∨
    (m = 9 ∧ daysBefore m = 273) ∨ (m = 10 ∧ daysBefore m = 304) ∨
    (m = 11 ∧ daysBefore m = 334) ∨ (m = 12 ∧ daysBefore m = 365) := by
  interval_cases m <;> decide

theorem monthDayCommon_spec (year day : Int) (h0 : 0 ≤ day) (h1 : day < 365) :
    (monthDayCommon year day).year = year ∧ 1 ≤ (monthDayCommon year day).month ∧
    (monthDayCommon year day).month ≤ 12 ∧ 1 ≤ (monthDayCommon year day).day ∧
    (monthDayCommon year day).day ≤ 31 ∧
    daysBefore ((monthDayCommon year day).month - 1) + ((monthDayCommon year day).day - 1) = day ∧
    ((monthDayCommon year day).month ≥ 3 ↔ day ≥ 59) := by
  have hm0 : 0 ≤ day / 31 := by omega
  have hm11 : day / 31 ≤ 11 := by omega
  have hA := daysBefore_cases (day / 31) hm0 (by omega)
  have hB := daysBefore_cases (day / 31 + 1) (by omega) (by omega)
  unfold monthDayCommon
  simp only
  split_ifs with hge
  · simp only [show day / 31 + 2 - 1 = day / 31 + 1 by omega]
    refine ⟨trivial, ?_, ?_, ?_, ?_, ?_, ?_, ?_⟩ <;> omega
  · simp only [show day / 31 + 1 - 1 = day / 31 by omega]
    refine ⟨trivial, ?_, ?_, ?_, ?_, ?_, ?_, ?_⟩ <;> omega

theorem monthDay_spec (year yday : Int) (h0 : 0 ≤ yday)
    (h1 : yday < 365 + (if isLeap year then 1 else 0)) :
    (monthDay year yday).year = year ∧ 1 ≤ (monthDay year yday).month ∧
    (monthDay year yday).month ≤ 12 ∧ 1 ≤ (monthDay year yday).day ∧
    (monthDay year yday).day ≤ 31 ∧
    daysBefore ((monthDay year yday).month - 1) +
      (if isLeap year && decide ((monthDay year yday).month ≥ 3) then 1 else 0) +
      ((monthDay year yday).day - 1) = yday := by
  cases hl : isLeap year
  · simp only [hl, Bool.false_and, Bool.false_eq_true, if_false, monthDay] at h1 ⊢
    have := monthDayCommon_spec year yday h0 (by omega)
    omega
  · simp only [hl, if_true, Bool.true_and] at h1 ⊢
    unfold monthDay
    simp only [hl, Bool.true_and]
    by_cases h59 : yday = 59
    · subst h59
      simp
      decide
    · have hne : (yday == 31 + 29 - 1) = false := by simpa using h59
      simp only [hne, Bool.false_eq_true, if_false]
      by_cases hgt : yday > 31 + 29 - 1
      · have := monthDayCommon_spec year (yday - 1) (by omega) (by omega)
        simp only [hgt, decide_True, if_true]
        have h3 : (monthDayCommon year (yday - 1)).month ≥ 3 := by omega
        simp only [h3, decide_True, if_true]
        omega
      · have := monthDayCommon_spec year yday (by omega) (by omega)
        simp only [hgt, decide_False, Bool.false_eq_true, if_false]
        have h3 : ¬ (monthDayCommon year yday).month ≥ 3 := by omega
        simp only [h3, decide_False, Bool.false_eq_true, if_false]
        omega

theorem absDate_spec (d : Int) :
    1 ≤ (absDate d).month ∧ (absDate d).month ≤ 12 ∧ 1 ≤ (absDate d).day ∧
    (absDate d).day ≤ 31 ∧
    daysSinceEpoch (absDate d).year + daysBefore ((absDate d).month - 1) +
      (if isLeap (absDate d).year && decide ((absDate d).month ≥ 3) then 1 else 0) +
      ((absDate d).day - 1) = d := by
  have hy := absYear_spec d
  have hm := monthDay_spec (absYear d).1 (absYear d).2 hy.2.1 hy.2.2
  unfold absDate
  rw [hm.1]
  omega

/-- Converting a day number to a calendar date, shifting the day of the month by `k`
and converting back gives the day number shifted by `k`. -/
theorem dateToAbs_absDate_add (d k : Int) :
    dateToAbs (absDate d).year (absDate d).month ((absDate d).day + k) = d + k := by
  have h := absDate_spec d
  obtain ⟨hm1, hm12, -, -, hsum⟩ := h
  unfold dateToAbs
  simp only
  have e1 : ((absDate d).month - 1) / 12 = 0 := by omega
  have e2 : ((absDate d).month - 1) % 12 = (absDate d).month - 1 := by omega
  rw [e1, e2, add_zero]
  have e3 : (decide ((absDate d).month - 1 + 1 ≥ 3)) = decide ((absDate d).month ≥ 3) := by
    congr 1
    simp
  rw [e3]
  split_ifs at hsum ⊢ <;> omega

/-- Shifting the month by one moves the day number forward by at least 28 days. -/
theorem dateToAbs_next_month (d : Int) :
    d + 28 ≤ dateToAbs (absDate d).year ((absDate d).month + 1) (absDate d).day := by
  have h := absDate_spec d
  obtain ⟨hm1, hm12, -, -, hsum⟩ := h
  have hA := daysBefore_cases ((absDate d).month - 1) (by omega) (by omega)
  have hs := daysSinceEpoch_succ (absDate d).year
  unfold dateToAbs
  simp only
  by_cases h12 : (absDate d).month = 12
  · have e1 : ((absDate d).month + 1 - 1) / 12 = 1 := by omega
    have e2 : ((absDate d).month + 1 - 1) % 12 = 0 := by omega
    rw [e1, e2]
    have e3 : daysBefore 0 = 0 := by decide
    have e4 : (decide ((0 : Int) + 1 ≥ 3)) = false := by decide
    rw [e3, e4, hs]
    simp only [Bool.and_false, Bool.false_eq_true, if_false]
    split_ifs at hsum ⊢ <;> omega
  · have e1 : ((absDate d).month + 1 - 1) / 12 = 0 := by omega
    have e2 : ((absDate d).month + 1 - 1) % 12 = (absDate d).month := by omega
    rw [e1, e2, add_zero]
    have hB := daysBefore_cases (absDate d).month (by omega) (by omega)
    split_ifs at hsum ⊢ <;> simp_all <;> omega


/-! ## The enumeration loops -/

theorem AddDate_one_day (t : Time) :
    t.AddDate 0 0 1 = { absDay := t.absDay + 1, nsec := t.nsec } := by
  unfold Time.AddDate
  simp only [add_zero]
  rw [dateToAbs_absDate_add]

theorem AddDate_one_month (t : Time) :
    t.absDay + 28 ≤ (t.AddDate 0 1 0).absDay ∧ (t.AddDate 0 1 0).nsec = t.nsec := by
  unfold Time.AddDate
  simp only [add_zero, and_true]
  exact dateToAbs_next_month t.absDay

theorem After_of_absDay_lt (t u : Time) (h : u.absDay < t.absDay) : t.After u = true := by
  simp [Time.After, h]

theorem absDay_le_of_not_After (t u : Time) (h : t.After u = false) : t.absDay ≤ u.absDay := by
  by_contra hc
  rw [After_of_absDay_lt t u (by omega)] at h
  exact Bool.noConfusion h

theorem After_midnight (d e : Int) :
    Time.After { absDay := d, nsec := 0 } { absDay := e, nsec := 0 } = decide (e < d) := by
  simp [Time.After]

/-- Between two midnights the daily loop appends one URL per day, from the current
day to the last one. -/
theorem generateDailyURLsLoop_midnight (symbol interval baseURL : String) (e : Int) :
    ∀ (n fuel : Nat) (urls : List String) (d : Int), n < fuel → (e - d + 1).toNat = n →
      generateDailyURLsLoop symbol interval baseURL { absDay := e, nsec := 0 } fuel urls
          { absDay := d, nsec := 0 } =
        some (urls ++ (List.range n).map (fun (i : Nat) =>
          baseURL ++ symbol ++ "-" ++ interval ++ "-" ++
            Time.FormatDate { absDay := d + (i : Int), nsec := 0 } ++ ".zip")) := by
  intro n
  induction n with
  | zero =>
    intro fuel urls d hfuel hn
    obtain ⟨f, rfl⟩ : ∃ f, fuel = f + 1 := ⟨fuel - 1, by omega⟩
    have hlt : e < d := by omega
    simp [generateDailyURLsLoop, After_midnight, hlt]
  | succ n ih =>
    intro fuel urls d hfuel hn
    obtain ⟨f, rfl⟩ : ∃ f, fuel = f + 1 := ⟨fuel - 1, by omega⟩
    have hle : ¬ e < d := by omega
    rw [generateDailyURLsLoop]
    simp only [After_midnight, hle, decide_False, Bool.not_false, if_true, AddDate_one_day]
    rw [ih f _ (d + 1) (by omega) (by omega)]
    rw [List.range_succ_eq_map, List.map_cons, List.map_map]
    simp only [List.append_assoc, List.singleton_append, Nat.cast_zero, add_zero]
    congr 3
    apply List.map_congr_left
    intro i _
    simp only [Function.comp, Nat.cast_succ]
    rw [show d + 1 + (i : Int) = d + ((i : Int) + 1) by ring]

theorem generateDailyURLsLoop_terminates (symbol interval baseURL : String) (endDate : Time) :
    ∀ (fuel : Nat) (urls : List String) (currentDate : Time),
      (endDate.absDay - currentDate.absDay + 1).toNat < fuel →
      ∃ result, generateDailyURLsLoop symbol interval baseURL endDate fuel urls currentDate =
        some result := by
  intro fuel
  induction fuel with
  | zero => intro urls currentDate h; omega
  | succ f ih =>
    intro urls currentDate h
    rw [generateDailyURLsLoop]
    cases hA : currentDate.After endDate
    · have hle := absDay_le_of_not_After _ _ hA
      simp only [Bool.not_false, if_true]
      apply ih
      rw [AddDate_one_day]
      simp only
      omega
    · exact ⟨urls, by simp⟩

theorem generateMonthlyURLsLoop_terminates (symbol interval baseURL : String) (endDate : Time) :
    ∀ (fuel : Nat) (urls : List String) (currentDate : Time),
      (endDate.absDay - currentDate.absDay + 1).toNat < fuel →
      ∃ result, generateMonthlyURLsLoop symbol interval baseURL endDate fuel urls currentDate =
        some result := by
  intro fuel
  induction fuel with
  | zero => intro urls currentDate h; omega
  | succ f ih =>
    intro urls currentDate h
    rw [generateMonthlyURLsLoop]
    cases hA : currentDate.After endDate
    · have hle := absDay_le_of_not_After _ _ hA
      have hstep := (AddDate_one_month currentDate).1
      simp only [Bool.not_false, if_true]
      apply ih
      omega
    · exact ⟨urls, by simp⟩


theorem generateMonthlyURLsLoop_mono (symbol interval baseURL : String) (endDate : Time) :
    ∀ (fuel : Nat) (urls : List String) (currentDate : Time) (result : List String),
      generateMonthlyURLsLoop symbol interval baseURL endDate fuel urls currentDate =
        some result →
      ∀ k : Nat, generateMonthlyURLsLoop symbol interval baseURL endDate (fuel + k) urls
        currentDate = some result := by
  intro fuel
  induction fuel with
  | zero => intro urls currentDate result h; simp [generateMonthlyURLsLoop] at h
  | succ f ih =>
    intro urls currentDate result h k
    rw [show f + 1 + k = (f + k) + 1 by omega]
    rw [generateMonthlyURLsLoop] at h ⊢
    cases hA : currentDate.After endDate
    · simp only [hA, Bool.not_false, if_true] at h ⊢
      exact ih _ _ _ h k
    · simpa [hA] using h

/-- C4: between two UTC midnights, `generateDailyURLs` returns, in increasing date
order, the URL `<baseURLDaily><symbol>/<interval>/<symbol>-<interval>-<YYYY-MM-DD>.zip`
of every calendar day from `startDate` to `endDate` inclusive: the list has as many
elements as there are days (none when `startDate` is after `endDate`) and its `i`-th
element carries the date `startDate + i` days; from 2021-01-01 to 2021-01-03 these are
the three URLs with tokens 2021-01-01, 2021-01-02, 2021-01-03. -/
theorem generateDailyURLs_one_per_day (symbol interval : String) :
    (∀ (s e : Int) (fuel : Nat), (e - s + 1).toNat < fuel →
      generateDailyURLs fuel symbol interval { absDay := s, nsec := 0 }
          { absDay := e, nsec := 0 } =
        some ((List.range (e - s + 1).toNat).map (fun (i : Nat) =>
          baseURLDaily ++ symbol ++ "/" ++ interval ++ "/" ++ symbol ++ "-" ++ interval ++ "-" ++
            Time.FormatDate { absDay := s + (i : Int), nsec := 0 } ++ ".zip")) ∧
      ((List.range (e - s + 1).toNat).map (fun (i : Nat) =>
          baseURLDaily ++ symbol ++ "/" ++ interval ++ "/" ++ symbol ++ "-" ++ interval ++ "-" ++
            Time.FormatDate { absDay := s + (i : Int), nsec := 0 } ++ ".zip")).length =
        (e - s + 1).toNat ∧
      (e < s → generateDailyURLs fuel symbol interval { absDay := s, nsec := 0 }
          { absDay := e, nsec := 0 } = some [])) ∧
    (∀ fuel : Nat, 3 < fuel →
      generateDailyURLs fuel symbol interval (Time.Date 2021 1 1 0 0 0 0)
          (Time.Date 2021 1 3 0 0 0 0) =
        some [
          baseURLDaily ++ symbol ++ "/" ++ interval ++ "/" ++ symbol ++ "-" ++ interval ++ "-" ++
            "2021-01-01" ++ ".zip",
          baseURLDaily ++ symbol ++ "/" ++ interval ++ "/" ++ symbol ++ "-" ++ interval ++ "-" ++
            "2021-01-02" ++ ".zip",
          baseURLDaily ++ symbol ++ "/" ++ interval ++ "/" ++ symbol ++ "-" ++ interval ++ "-" ++
            "2021-01-03" ++ ".zip"]) := by
  have general : ∀ (s e : Int) (fuel : Nat), (e - s + 1).toNat < fuel →
      generateDailyURLs fuel symbol interval { absDay := s, nsec := 0 }
          { absDay := e, nsec := 0 } =
        some ((List.range (e - s + 1).toNat).map (fun (i : Nat) =>
          baseURLDaily ++ symbol ++ "/" ++ interval ++ "/" ++ symbol ++ "-" ++ interval ++ "-" ++
            Time.FormatDate { absDay := s + (i : Int), nsec := 0 } ++ ".zip")) := by
    intro s e fuel hfuel
    unfold generateDailyURLs
    simp only
    rw [generateDailyURLsLoop_midnight symbol interval _ e _ fuel [] s hfuel rfl]
    simp
  refine ⟨fun s e fuel hfuel => ⟨general s e fuel hfuel, by simp, ?_⟩, ?_⟩
  · intro hlt
    rw [general s e fuel hfuel]
    have h0 : (e - s + 1).toNat = 0 := by omega
    rw [h0]
    rfl
  · intro fuel hfuel
    have hs : Time.Date 2021 1 1 0 0 0 0 = { absDay := 737790, nsec := 0 } := by decide
    have he : Time.Date 2021 1 3 0 0 0 0 = { absDay := 737792, nsec := 0 } := by decide
    rw [hs, he, general 737790 737792 fuel (by simpa using hfuel)]
    have h1 : Time.FormatDate { absDay := 737790, nsec := 0 } = "2021-01-01" := by decide
    have h2 : Time.FormatDate { absDay := 737791, nsec := 0 } = "2021-01-02" := by decide
    have h3 : Time.FormatDate { absDay := 737792, nsec := 0 } = "2021-01-03" := by decide
    have hn : ((737792 : Int) - 737790 + 1).toNat = 3 := by decide
    rw [hn]
    simp [List.range_succ, h1, h2, h3]

/-- Witness of C4: the four days from 2021-02-26 to 2021-03-01, with fuel 5. -/
theorem generateDailyURLs_one_per_day_witness :
    generateDailyURLs 5 "BTCUSDT" "1m" { absDay := 737846, nsec := 0 }
        { absDay := 737849, nsec := 0 } =
      some ((List.range ((737849 : Int) - 737846 + 1).toNat).map (fun (i : Nat) =>
        baseURLDaily ++ "BTCUSDT" ++ "/" ++ "1m" ++ "/" ++ "BTCUSDT" ++ "-" ++ "1m" ++ "-" ++
          Time.FormatDate { absDay := 737846 + (i : Int), nsec := 0 } ++ ".zip")) :=
  ((generateDailyURLs_one_per_day "BTCUSDT" "1m").1 737846 737849 5 (by decide)).1

/-- C3: from 2021-01-15 to 2021-03-02 `generateMonthlyURLs` returns two URLs, with
tokens 2021-01 and 2021-02; the month of `endDate` is missing, because the loop
compares the 15th of March with the 2nd of March. -/
theorem generateMonthlyURLs_misses_last_month :
    ∀ k : Nat, generateMonthlyURLs (3 + k) "BTCUSDT" "1m" (Time.Date 2021 1 15 0 0 0 0)
        (Time.Date 2021 3 2 0 0 0 0) =
      some ["https://data.binance.vision/data/spot/monthly/klines/BTCUSDT/1m/BTCUSDT-1m-2021-01.zip",
        "https://data.binance.vision/data/spot/monthly/klines/BTCUSDT/1m/BTCUSDT-1m-2021-02.zip"] := by
  intro k
  unfold generateMonthlyURLs
  exact generateMonthlyURLsLoop_mono _ _ _ _ 3 _ _ _ (by decide) k

/-- C10: from 2021-01-31 to 2021-04-30 `generateMonthlyURLs` returns the tokens
2021-01, 2021-03, 2021-04: February is skipped, because adding one month to January 31
gives March 3. -/
theorem generateMonthlyURLs_skips_february :
    ∀ k : Nat, generateMonthlyURLs (4 + k) "BTCUSDT" "1m" (Time.Date 2021 1 31 0 0 0 0)
        (Time.Date 2021 4 30 0 0 0 0) =
      some ["https://data.binance.vision/data/spot/monthly/klines/BTCUSDT/1m/BTCUSDT-1m-2021-01.zip",
        "https://data.binance.vision/data/spot/monthly/klines/BTCUSDT/1m/BTCUSDT-1m-2021-03.zip",
        "https://data.binance.vision/data/spot/monthly/klines/BTCUSDT/1m/BTCUSDT-1m-2021-04.zip"] := by
  intro k
  unfold generateMonthlyURLs
  exact generateMonthlyURLsLoop_mono _ _ _ _ 4 _ _ _ (by decide) k


/-! ## The bulk downloader -/

theorem enumerateURLs_terminates (symbol interval : String) (startDate endDate : Time)
    (dataType : String) (fuel : Nat)
    (hfuel : (endDate.absDay - startDate.absDay + 1).toNat < fuel) :
    ∃ urls, enumerateURLs fuel symbol interval startDate endDate dataType = some urls := by
  unfold enumerateURLs
  split_ifs
  · exact generateMonthlyURLsLoop_terminates _ _ _ _ fuel [] startDate hfuel
  · exact generateDailyURLsLoop_terminates _ _ _ _ fuel [] startDate hfuel

theorem downloadFile_of_fails (w : World) (url savePath : String) (fs : Files)
    (h : (w.httpGet url).Fails) :
    (downloadFile w url savePath fs).2 = fs ∧ (downloadFile w url savePath fs).1 ≠ none := by
  unfold downloadFile
  cases hg : w.httpGet url with
  | transportError err => simp
  | response statusCode status body readErr =>
    rw [hg] at h
    have hne : statusCode ≠ 200 := h
    simp [hne]

theorem foldl_download_of_fails (w : World) (saveDir : String) :
    ∀ (urls : List String) (fs : Files), (∀ url ∈ urls, (w.httpGet url).Fails) →
      urls.foldl (fun (fs : Files) (url : String) =>
        (downloadFile w url (w.filepathJoin [saveDir, w.filepathBase url]) fs).2) fs = fs := by
  intro urls
  induction urls with
  | nil => intro fs _; rfl
  | cons u rest ih =>
    intro fs h
    rw [List.foldl_cons, (downloadFile_of_fails w u _ fs (h u (List.mem_cons_self _ _))).1]
    exact ih fs (fun url hu => h url (List.mem_cons_of_mem _ hu))

/-- When the fetch succeeds and the file can be created, `downloadFile` writes the body
to the destination and returns `nil`. -/
theorem downloadFile_success_example :
    downloadFile
        { httpGet := fun _ => .response 200 "200 OK" "archive bytes" none
          osCreate := fun _ => none
          filepathJoin := fun elems => "/".intercalate elems
          filepathBase := fun path => path }
        "https://data.binance.vision/data/spot/daily/klines/BTCUSDT/1m/BTCUSDT-1m-2021-01-01.zip"
        "static/BTCUSDT/1m/BTCUSDT-1m-2021-01-01.zip" [] =
      (none, [("static/BTCUSDT/1m/BTCUSDT-1m-2021-01-01.zip", "archive bytes")]) := by
  decide

/-- C9: when the fetch of every enumerated URL fails (transport error or a status
other than 200), `processSymbolInterval` returns `nil` and the files are what they were
before the call, whatever the symbol, interval, date range, granularity and the order
in which the download tasks run: `downloadFile` returns its error before it creates
the file, and `processSymbolInterval` drops that error. -/
theorem processSymbolInterval_all_fetches_fail (w : World) (schedule : List String → List String)
    (symbol interval : String) (startDate endDate : Time) (dataType : String) (fs : Files)
    (fuel : Nat) (hfuel : (endDate.absDay - startDate.absDay + 1).toNat < fuel)
    (hschedule : ∀ urls, (schedule urls).Perm urls)
    (hfail : ∀ urls, enumerateURLs fuel symbol interval startDate endDate dataType = some urls →
      ∀ url ∈ urls, (w.httpGet url).Fails) :
    processSymbolInterval w schedule fuel symbol interval startDate endDate dataType fs =
      some (none, fs) ∧
    ∀ url savePath files, (w.httpGet url).Fails →
      (downloadFile w url savePath files).1 ≠ none ∧
      (downloadFile w url savePath files).2 = files := by
  refine ⟨?_, fun url savePath files h =>
    ⟨(downloadFile_of_fails w url savePath files h).2,
      (downloadFile_of_fails w url savePath files h).1⟩⟩
  obtain ⟨urls, hurls⟩ :=
    enumerateURLs_terminates symbol interval startDate endDate dataType fuel hfuel
  have hall := hfail urls hurls
  unfold enumerateURLs at hurls
  unfold processSymbolInterval
  simp only [hurls]
  rw [foldl_download_of_fails w _ (schedule urls) fs
    (fun url hu => hall url ((hschedule urls).mem_iff.mp hu))]


/-- Witness of C9: three daily archives, none of which can be fetched, the tasks
running in reverse order. -/
theorem processSymbolInterval_all_fetches_fail_witness :
    processSymbolInterval unreachableWorld List.reverse 4 "BTCUSDT" "1m"
        (Time.Date 2021 1 1 0 0 0 0) (Time.Date 2021 1 3 0 0 0 0) "daily" [] =
      some (none, []) :=
  (processSymbolInterval_all_fetches_fail unreachableWorld List.reverse "BTCUSDT" "1m"
    (Time.Date 2021 1 1 0 0 0 0) (Time.Date 2021 1 3 0 0 0 0) "daily" [] 4 (by decide)
    (fun urls => List.reverse_perm urls)
    (fun _ _ url _ => by
      unfold unreachableWorld
      simp only
      split_ifs <;> simp [FetchResult.Fails])).1

end CrawlFromFile

namespace CrawlFromApi

/-! ## Decoding a page -/

theorem wrap64_of_range (x : Int) (h0 : -9223372036854775808 ≤ x)
    (h1 : x < 9223372036854775808) : wrap64 x = x := by
  unfold wrap64
  omega

theorem int64OfFloat64_of_range (x : Int) (h0 : -9223372036854775808 ≤ x)
    (h1 : x < 9223372036854775808) : int64OfFloat64 x = x := by
  unfold int64OfFloat64
  rw [if_pos ⟨h0, h1⟩]

theorem decodeKline_encodeKline (k : Kline) (h : k.InRange) :
    decodeKline (encodeKline k) = .ok k := by
  obtain ⟨h1, h2, h3, h4, h5, h6⟩ := h
  simp [decodeKline, encodeKline, index, assertFloat64, assertString, bind, Except.bind, pure,
    Except.pure, int64OfFloat64_of_range k.OpenTime (by omega) (by omega),
    int64OfFloat64_of_range k.CloseTime (by omega) (by omega),
    int64OfFloat64_of_range k.NumberOfTrades (by omega) (by omega)]

theorem appendDecoded_encode :
    ∀ (page allKlines : List Kline), (∀ k ∈ page, k.InRange) →
      appendDecoded allKlines (page.map encodeKline) = .ok (allKlines ++ page) := by
  intro page
  induction page with
  | nil => intro allKlines _; simp [appendDecoded]
  | cons k rest ih =>
    intro allKlines h
    rw [List.map_cons, appendDecoded, decodeKline_encodeKline k (h k (List.mem_cons_self _ _))]
    simp only
    rw [ih _ (fun x hx => h x (List.mem_cons_of_mem _ hx))]
    simp

theorem sampleCandle_inRange (t : Int) (h0 : -9007199254740992 ≤ t)
    (h1 : t ≤ 9007199254739000) : (sampleCandle t).InRange := by
  unfold Kline.InRange sampleCandle
  simp only
  omega


/-! ## The crawl over a well-behaved upstream -/

theorem stuck_on_second_page :
    ∀ (fuel sent : Nat) (rest : List Kline),
      (getBinanceKlinesLoop (wellBehavedUpstream [sampleCandle 1000, sampleCandle 2000])
        "BTCUSDT" "1d" 1 fuel sent (sampleCandle 2000 :: rest) 1999).outcome = none := by
  intro fuel
  induction fuel with
  | zero => intro sent rest; rfl
  | succ f ih =>
    intro sent rest
    have hresp : wellBehavedUpstream [sampleCandle 1000, sampleCandle 2000] sent
        { symbol := "BTCUSDT", interval := "1d", endTime := 1999, limit := 1 } =
        .response 200 "200 OK" (.decoded ([sampleCandle 1000].map encodeKline)) :=
      (by decide : wellBehavedUpstream [sampleCandle 1000, sampleCandle 2000] 0
        { symbol := "BTCUSDT", interval := "1d", endTime := 1999, limit := 1 } =
        .response 200 "200 OK" (.decoded ([sampleCandle 1000].map encodeKline)))
    have hdec := appendDecoded_encode [sampleCandle 1000] (sampleCandle 2000 :: rest)
      (fun k hk => by
        rw [List.mem_singleton.mp hk]
        exact sampleCandle_inRange 1000 (by decide) (by decide))
    have hcursor : wrap64 ((sampleCandle 2000).OpenTime - 1) = 1999 := by decide
    rw [getBinanceKlinesLoop]
    simp only [hresp, hdec, ne_eq, not_true_eq_false, if_false, List.map_cons, List.map_nil,
      List.length_singleton, one_ne_zero, List.cons_append, hcursor]
    exact ih (sent + 1) (rest ++ [sampleCandle 1000])

/-- C1: over the well-behaved upstream that holds the two candles opening at 1000 and
2000, with `endTime = 5000` and `pageSize = 1`, `getBinanceKlines` never returns:
whatever the number of iterations allowed, the loop is still running, because every
request after the first one asks again for the page that ends just before the first
candle of the first page. -/
theorem getBinanceKlines_never_returns :
    ∀ fuel : Nat,
      (getBinanceKlines fuel (wellBehavedUpstream [sampleCandle 1000, sampleCandle 2000])
        "BTCUSDT" "1d" 5000 1).outcome = none := by
  intro fuel
  cases fuel with
  | zero => rfl
  | succ f =>
    have hresp : wellBehavedUpstream [sampleCandle 1000, sampleCandle 2000] 0
        { symbol := "BTCUSDT", interval := "1d", endTime := 5000, limit := 1 } =
        .response 200 "200 OK" (.decoded ([sampleCandle 2000].map encodeKline)) := by
      decide
    have hdec := appendDecoded_encode [sampleCandle 2000] []
      (fun k hk => by
        rw [List.mem_singleton.mp hk]
        exact sampleCandle_inRange 2000 (by decide) (by decide))
    have hcursor : wrap64 ((sampleCandle 2000).OpenTime - 1) = 1999 := by decide
    unfold getBinanceKlines
    rw [getBinanceKlinesLoop]
    simp only [hresp, hdec, ne_eq, not_true_eq_false, if_false, List.map_cons, List.map_nil,
      List.length_singleton, one_ne_zero, List.nil_append, hcursor]
    exact stuck_on_second_page f 1 []

/-- C2: over the well-behaved upstream that holds the candles opening at 1000 and
2000, with `pageSize = 1`, the third request carries the cursor 1999 again, whereas
the page just fetched (the answer to the second request) starts at the candle with
`openTime` 1000, so that the claim asks for the cursor 999: the cursor is taken from
`allKlines[0]`, the first candle of the first page. -/
theorem getBinanceKlines_cursor_from_first_page :
    (getBinanceKlines 3 (wellBehavedUpstream [sampleCandle 1000, sampleCandle 2000])
        "BTCUSDT" "1d" 5000 1).requests.map (fun req => req.endTime) = [5000, 1999, 1999] ∧
    servePage [sampleCandle 1000, sampleCandle 2000] 5000 1 = [sampleCandle 2000] ∧
    servePage [sampleCandle 1000, sampleCandle 2000] 1999 1 = [sampleCandle 1000] ∧
    (sampleCandle 1000).OpenTime - 1 = 999 := by
  decide

/-- C5: a page whose element has a number where the `open` string is expected, or
has only 11 fields, makes `getBinanceKlines` panic (failed type assertion, index out of
range): no error value is returned to the caller, unlike for a transport error or a
status other than 200. -/
theorem getBinanceKlines_panics_on_malformed_element :
    (getBinanceKlines 5
        (fun _ _ => .response 200 "200 OK" (.decoded [
          [.number 1000, .number 29000, .string "29500.00", .string "28800.55",
            .string "29300.00", .string "1520.75", .number 1999, .string "44300000.00",
            .number 4200, .string "800.10", .string "23300000.00", .string "0"]]))
        "BTCUSDT" "1d" 5000 1000).outcome = some (.panicked .typeAssertion) ∧
    (getBinanceKlines 5
        (fun _ _ => .response 200 "200 OK" (.decoded [
          [.number 1000, .string "29000.10", .string "29500.00", .string "28800.55",
            .string "29300.00", .string "1520.75", .number 1999, .string "44300000.00",
            .number 4200, .string "800.10", .string "23300000.00"]]))
        "BTCUSDT" "1d" 5000 1000).outcome = some (.panicked .indexOutOfRange) ∧
    (getBinanceKlines 5 (fun _ _ => .transportError "dial tcp: connection refused")
        "BTCUSDT" "1d" 5000 1000).outcome =
      some (.failed "error fetching data: dial tcp: connection refused") ∧
    (getBinanceKlines 5 (fun _ _ => .response 429 "429 Too Many Requests" (.decoded []))
        "BTCUSDT" "1d" 5000 1000).outcome =
      some (.failed "error fetching data: 429 Too Many Requests") := by
  decide


theorem mem_eligible (candles : List Kline) (cursor : Int) (k : Kline) :
    k ∈ eligible candles cursor ↔ k ∈ candles ∧ k.OpenTime ≤ cursor := by
  unfold eligible
  rw [(List.perm_insertionSort _ _).mem_iff, List.mem_filter]
  simp

theorem eligible_length (candles : List Kline) (cursor : Int) :
    (eligible candles cursor).length =
      (candles.filter (fun k => decide (k.OpenTime ≤ cursor))).length :=
  (List.perm_insertionSort _ _).length_eq

theorem eligible_sorted (candles : List Kline) (cursor : Int) :
    (eligible candles cursor).Sorted (fun a b => a.OpenTime ≤ b.OpenTime) := by
  haveI : IsTotal Kline (fun a b => a.OpenTime ≤ b.OpenTime) :=
    ⟨fun a b => le_total a.OpenTime b.OpenTime⟩
  haveI : IsTrans Kline (fun a b => a.OpenTime ≤ b.OpenTime) :=
    ⟨fun a b c hab hbc => le_trans hab hbc⟩
  exact List.sorted_insertionSort _ _

theorem eligible_before_oldest (candles : List Kline) (cursor : Int) (first : Kline)
    (rest : List Kline) (h : eligible candles cursor = first :: rest) :
    eligible candles (first.OpenTime - 1) = [] := by
  have hsorted := eligible_sorted candles cursor
  rw [h] at hsorted
  have hfirst : first ∈ candles ∧ first.OpenTime ≤ cursor := by
    rw [← mem_eligible, h]
    exact List.mem_cons_self _ _
  apply List.eq_nil_iff_forall_not_mem.mpr
  intro k hk
  rw [mem_eligible] at hk
  have hk2 : k ∈ eligible candles cursor := by
    rw [mem_eligible]
    exact ⟨hk.1, by omega⟩
  rw [h, List.mem_cons] at hk2
  rcases hk2 with rfl | hrest
  · omega
  · have := List.rel_of_sorted_cons hsorted k hrest
    omega

/-- C6: when `pageSize = n ≥ 1` and the well-behaved upstream holds exactly `n` candles
with `openTime ≤ endTime`, `getBinanceKlines` issues exactly two requests, the first
with the cursor `endTime`, answered by the full page of these `n` candles, the second
with the cursor just before the oldest candle, answered by the empty page, and returns
the `n` candles in the order of the page. The integer fields of the candles are
integers that the JSON numbers of the encoding carry exactly. -/
theorem getBinanceKlines_single_full_page (candles : List Kline) (symbol interval : String)
    (endTime : Int) (n fuel : Nat) (hn : 1 ≤ n)
    (hrange : ∀ k ∈ candles, k.InRange)
    (hcount : (candles.filter (fun k => decide (k.OpenTime ≤ endTime))).length = n)
    (hfuel : 2 ≤ fuel) :
    ∃ first rest,
      servePage candles endTime n = first :: rest ∧
      (first :: rest).length = n ∧
      (first :: rest).Perm (candles.filter (fun k => decide (k.OpenTime ≤ endTime))) ∧
      servePage candles (first.OpenTime - 1) n = [] ∧
      getBinanceKlines fuel (wellBehavedUpstream candles) symbol interval endTime n =
        { requests := [
            { symbol := symbol, interval := interval, endTime := endTime, limit := n },
            { symbol := symbol, interval := interval, endTime := first.OpenTime - 1,
              limit := n }]
          outcome := some (.returned (first :: rest)) } := by
  have hlen : (eligible candles endTime).length = n := by rw [eligible_length, hcount]
  have hpage : servePage candles endTime n = eligible candles endTime := by
    unfold servePage
    simp [hlen]
  obtain ⟨first, rest, hcons⟩ : ∃ first rest, eligible candles endTime = first :: rest := by
    cases he : eligible candles endTime with
    | nil => rw [he] at hlen; simp at hlen; omega
    | cons a l => exact ⟨a, l, rfl⟩
  have hempty : servePage candles (first.OpenTime - 1) n = [] := by
    unfold servePage
    simp [eligible_before_oldest candles endTime first rest hcons]
  have hmem : ∀ k ∈ first :: rest, k.InRange := by
    intro k hk
    rw [← hcons, mem_eligible] at hk
    exact hrange k hk.1
  have hfirst := hmem first (List.mem_cons_self _ _)
  have hcursor : wrap64 (first.OpenTime - 1) = first.OpenTime - 1 := by
    obtain ⟨h1, h2, -⟩ := hfirst
    exact wrap64_of_range _ (by omega) (by omega)
  refine ⟨first, rest, by rw [hpage, hcons], by rw [← hcons, hlen], ?_, hempty, ?_⟩
  · rw [← hcons]
    exact List.perm_insertionSort _ _
  · obtain ⟨f, rfl⟩ : ∃ f, fuel = f + 2 := ⟨fuel - 2, by omega⟩
    have hdec := appendDecoded_encode (first :: rest) [] hmem
    rw [List.nil_append] at hdec
    have hresp1 : wellBehavedUpstream candles 0
        { symbol := symbol, interval := interval, endTime := endTime, limit := n } =
        .response 200 "200 OK" (.decoded ((first :: rest).map encodeKline)) := by
      simp only [wellBehavedUpstream, hpage, hcons]
    have hresp2 : wellBehavedUpstream candles (0 + 1)
        { symbol := symbol, interval := interval, endTime := first.OpenTime - 1, limit := n } =
        .response 200 "200 OK" (.decoded []) := by
      simp only [wellBehavedUpstream, hempty, List.map_nil]
    unfold getBinanceKlines
    rw [getBinanceKlinesLoop]
    simp only [hresp1, hdec, hcursor, ne_eq, not_true_eq_false, if_false, List.length_map,
      List.length_cons, Nat.succ_ne_zero]
    rw [getBinanceKlinesLoop]
    simp only [hresp2, ne_eq, not_true_eq_false, if_false, List.length_nil, if_true, Run.after]

/-- Witness of C6: three candles served with `pageSize = 3`. -/
theorem getBinanceKlines_single_full_page_witness :
    ∃ first rest,
      servePage [sampleCandle 3000, sampleCandle 1000, sampleCandle 2000, sampleCandle 9000]
        5000 (3 : Nat) = first :: rest ∧
      (first :: rest).length = 3 ∧
      (first :: rest).Perm
        ([sampleCandle 3000, sampleCandle 1000, sampleCandle 2000, sampleCandle 9000].filter
          (fun k => decide (k.OpenTime ≤ 5000))) ∧
      servePage [sampleCandle 3000, sampleCandle 1000, sampleCandle 2000, sampleCandle 9000]
        (first.OpenTime - 1) (3 : Nat) = [] ∧
      getBinanceKlines 2
          (wellBehavedUpstream
            [sampleCandle 3000, sampleCandle 1000, sampleCandle 2000, sampleCandle 9000])
          "BTCUSDT" "1d" 5000 (3 : Nat) =
        { requests := [
            { symbol := "BTCUSDT", interval := "1d", endTime := 5000, limit := (3 : Nat) },
            { symbol := "BTCUSDT", interval := "1d", endTime := first.OpenTime - 1,
              limit := (3 : Nat) }]
          outcome := some (.returned (first :: rest)) } :=
  getBinanceKlines_single_full_page
    [sampleCandle 3000, sampleCandle 1000, sampleCandle 2000, sampleCandle 9000]
    "BTCUSDT" "1d" 5000 3 2 (by decide)
    (fun k hk => by
      simp only [List.mem_cons, List.mem_singleton, List.not_mem_nil, or_false] at hk
      rcases hk with rfl | rfl | rfl | rfl <;>
        exact sampleCandle_inRange _ (by decide) (by decide))
    (by decide) (by decide)


/-! ## Persistence -/

theorem writeRows_no_error (fs : FileSystem) (filePath : String)
    (hwrite : ∀ i row, fs.write i row = none) :
    ∀ (klines : List Kline) (i : Nat) (records : List (List String)),
      writeRows fs filePath i klines records =
        { err := none, filePath := some filePath
          records := records ++ klines.map (fun k =>
            [formatInt k.OpenTime, k.Open, k.High, k.Low, k.Close, k.Volume,
              formatInt k.CloseTime]) } := by
  intro klines
  induction klines with
  | nil => intro i records; simp [writeRows]
  | cons k rest ih =>
    intro i records
    rw [writeRows]
    simp only [hwrite, ih, List.map_cons, List.append_assoc, List.singleton_append]

/-- C8: absent a filesystem error, the records `saveKlinesToCSV` writes are the header
row `Open Time, Open, High, Low, Close, Volume, Close Time` followed by one row of 7
fields per candle, in the order of the series: the base-10 `openTime`, the five decimal
fields unchanged, the base-10 `closeTime`. There are as many data rows as candles, and
the header is there for every series, the empty one included. -/
theorem saveKlinesToCSV_records (fs : FileSystem) (klines : List Kline)
    (symbol interval folder : String)
    (hmkdir : fs.mkdirAll folder = none)
    (hcreate : fs.create (folder ++ "/" ++ symbol ++ "_" ++ interval ++ ".csv") = none)
    (hwrite : ∀ i row, fs.write i row = none) :
    saveKlinesToCSV fs klines symbol interval folder =
      { err := none
        filePath := some (folder ++ "/" ++ symbol ++ "_" ++ interval ++ ".csv")
        records := ["Open Time", "Open", "High", "Low", "Close", "Volume", "Close Time"] ::
          klines.map (fun k => [formatInt k.OpenTime, k.Open, k.High, k.Low, k.Close, k.Volume,
            formatInt k.CloseTime]) } ∧
    (saveKlinesToCSV fs klines symbol interval folder).records.length = klines.length + 1 ∧
    (saveKlinesToCSV fs klines symbol interval folder).records.head? =
      some ["Open Time", "Open", "High", "Low", "Close", "Volume", "Close Time"] ∧
    (∀ row ∈ (saveKlinesToCSV fs klines symbol interval folder).records, row.length = 7) ∧
    (saveKlinesToCSV fs [] symbol interval folder).records =
      [["Open Time", "Open", "High", "Low", "Close", "Volume", "Close Time"]] := by
  have main : ∀ ks : List Kline, saveKlinesToCSV fs ks symbol interval folder =
      { err := none
        filePath := some (folder ++ "/" ++ symbol ++ "_" ++ interval ++ ".csv")
        records := ["Open Time", "Open", "High", "Low", "Close", "Volume", "Close Time"] ::
          ks.map (fun k => [formatInt k.OpenTime, k.Open, k.High, k.Low, k.Close, k.Volume,
            formatInt k.CloseTime]) } := by
    intro ks
    unfold saveKlinesToCSV
    simp only [hmkdir, hcreate, hwrite, writeRows_no_error fs _ hwrite, headers,
      List.singleton_append]
  refine ⟨main klines, ?_, ?_, ?_, ?_⟩
  · rw [main klines]; simp
  · rw [main klines]; simp
  · rw [main klines]
    intro row hrow
    simp only [List.mem_cons, List.mem_map] at hrow
    rcases hrow with rfl | ⟨k, -, rfl⟩ <;> rfl
  · rw [main []]; simp

/-- Witness of C8: a series of two candles, the newer one first, on a filesystem
without error. -/
theorem saveKlinesToCSV_records_witness :
    saveKlinesToCSV ⟨fun _ => none, fun _ => none, fun _ _ => none⟩
        [sampleCandle 1609545600000, sampleCandle 1609459200000] "BTCUSDT" "1d" "csv" =
      { err := none
        filePath := some "csv/BTCUSDT_1d.csv"
        records := [
          ["Open Time", "Open", "High", "Low", "Close", "Volume", "Close Time"],
          ["1609545600000", "29000.10", "29500.00", "28800.55", "29300.00", "1520.75",
            "1609545600999"],
          ["1609459200000", "29000.10", "29500.00", "28800.55", "29300.00", "1520.75",
            "1609459200999"]] } :=
  (saveKlinesToCSV_records ⟨fun _ => none, fun _ => none, fun _ _ => none⟩
    [sampleCandle 1609545600000, sampleCandle 1609459200000] "BTCUSDT" "1d" "csv"
    rfl rfl (fun _ _ => rfl)).1.trans (by decide)

/-! ## The crawl over more than one page -/

theorem no_outcome_of_repeated_page (candles : List Kline) (symbol interval : String)
    (n : Int) (first : Kline) (page : List Kline)
    (hpage : servePage candles (wrap64 (first.OpenTime - 1)) n = page)
    (hne : page ≠ []) (hrange : ∀ k ∈ page, k.InRange) :
    ∀ (fuel sent : Nat) (tail : List Kline),
      (getBinanceKlinesLoop (wellBehavedUpstream candles) symbol interval n fuel sent
        (first :: tail) (wrap64 (first.OpenTime - 1))).outcome = none := by
  intro fuel
  induction fuel with
  | zero => intro sent tail; rfl
  | succ f ih =>
    intro sent tail
    have hresp : wellBehavedUpstream candles sent
        ⟨symbol, interval, wrap64 (first.OpenTime - 1), n⟩ =
        .response 200 "200 OK" (.decoded (page.map encodeKline)) := by
      simp only [wellBehavedUpstream, hpage]
    have hlen : (page.map encodeKline).length ≠ 0 := by
      rw [List.length_map]
      exact fun h => hne (List.length_eq_zero.mp h)
    rw [getBinanceKlinesLoop]
    simp only [hresp, ne_eq, not_true_eq_false, if_false, hlen,
      appendDecoded_encode page (first :: tail) hrange, List.cons_append, Run.after]
    exact ih (sent + 1) (tail ++ page)

theorem servePage_subset (candles : List Kline) (cursor n : Int) :
    ∀ k ∈ servePage candles cursor n, k ∈ candles ∧ k.OpenTime ≤ cursor := by
  intro k hk
  unfold servePage at hk
  exact (mem_eligible candles cursor k).mp (List.mem_of_mem_drop hk)

/-- Over a well-behaved upstream that holds more than `pageSize` candles with
`openTime ≤ endTime`, `getBinanceKlines` never returns. -/
theorem getBinanceKlines_no_outcome_of_second_page (candles : List Kline)
    (symbol interval : String) (endTime : Int) (n : Nat) (hn : 1 ≤ n)
    (hdistinct : (candles.map (fun k => k.OpenTime)).Nodup)
    (hrange : ∀ k ∈ candles, k.InRange)
    (hcount : n < (candles.filter (fun k => decide (k.OpenTime ≤ endTime))).length) :
    ∀ fuel : Nat,
      (getBinanceKlines fuel (wellBehavedUpstream candles) symbol interval endTime n).outcome =
        none := by
  intro fuel
  have hlen : n < (eligible candles endTime).length := by rw [eligible_length]; exact hcount
  have hstrict : (eligible candles endTime).Pairwise (fun a b => a.OpenTime < b.OpenTime) := by
    have hnodup : ((eligible candles endTime).map (fun k => k.OpenTime)).Nodup := by
      have hperm : ((eligible candles endTime).map (fun k => k.OpenTime)).Perm
          ((candles.filter (fun k => decide (k.OpenTime ≤ endTime))).map (fun k => k.OpenTime)) :=
        (List.perm_insertionSort _ _).map _
      rw [hperm.nodup_iff]
      exact hdistinct.sublist ((List.filter_sublist candles).map _)
    rw [List.Nodup, List.pairwise_map] at hnodup
    exact ((eligible_sorted candles endTime).and hnodup).imp
      (fun h => lt_of_le_of_ne h.1 h.2)
  have hm : (eligible candles endTime).length - n < (eligible candles endTime).length := by omega
  have hm1 : (eligible candles endTime).length - n - 1 < (eligible candles endTime).length := by
    omega
  have hpage : servePage candles endTime n =
      (eligible candles endTime)[(eligible candles endTime).length - n] ::
        (eligible candles endTime).drop ((eligible candles endTime).length - n + 1) := by
    unfold servePage
    simp only [Int.toNat_ofNat]
    exact List.drop_eq_getElem_cons hm
  have hlt : ((eligible candles endTime)[(eligible candles endTime).length - n - 1]).OpenTime <
      ((eligible candles endTime)[(eligible candles endTime).length - n]).OpenTime :=
    List.pairwise_iff_getElem.mp hstrict _ _ hm1 hm (by omega)
  generalize hfirst : (eligible candles endTime)[(eligible candles endTime).length - n] = first
    at hpage hlt
  generalize hx : (eligible candles endTime)[(eligible candles endTime).length - n - 1] = x
    at hlt
  have hfirstmem : first ∈ candles ∧ first.OpenTime ≤ endTime := by
    rw [← mem_eligible, ← hfirst]
    exact List.getElem_mem _
  have hxmem : x ∈ candles ∧ x.OpenTime ≤ endTime := by
    rw [← mem_eligible, ← hx]
    exact List.getElem_mem _
  have hcursor : wrap64 (first.OpenTime - 1) = first.OpenTime - 1 := by
    obtain ⟨h1, h2, -⟩ := hrange first hfirstmem.1
    obtain ⟨h3, -⟩ := hrange x hxmem.1
    exact wrap64_of_range _ (by omega) (by omega)
  have hsecond : servePage candles (wrap64 (first.OpenTime - 1)) n ≠ [] := by
    rw [hcursor]
    have hxe : x ∈ eligible candles (first.OpenTime - 1) := by
      rw [mem_eligible]
      exact ⟨hxmem.1, by omega⟩
    have hpos : 0 < (eligible candles (first.OpenTime - 1)).length := List.length_pos_of_mem hxe
    intro hnil
    have hl := congrArg List.length hnil
    unfold servePage at hl
    simp only [Int.toNat_ofNat, List.length_drop, List.length_nil] at hl
    omega
  cases fuel with
  | zero => rfl
  | succ f =>
    have hresp : wellBehavedUpstream candles 0 ⟨symbol, interval, endTime, n⟩ =
        .response 200 "200 OK" (.decoded ((servePage candles endTime n).map encodeKline)) := rfl
    have hin : ∀ k ∈ servePage candles endTime n, k.InRange :=
      fun k hk => hrange k (servePage_subset candles endTime n k hk).1
    have hlen1 : ((servePage candles endTime n).map encodeKline).length ≠ 0 := by
      rw [hpage]
      simp
    unfold getBinanceKlines
    rw [getBinanceKlinesLoop]
    simp only [hresp, ne_eq, not_true_eq_false, if_false, hlen1,
      appendDecoded_encode _ [] hin, List.nil_append]
    rw [hpage]
    simp only [Run.after]
    exact no_outcome_of_repeated_page candles symbol interval n first _ rfl hsecond
      (fun k hk => hrange k (servePage_subset candles _ n k hk).1) f _ _

/-- Three candles fetched in pages of two: the call never returns. -/
theorem getBinanceKlines_no_outcome_three_candles :
    ∀ fuel : Nat,
      (getBinanceKlines fuel
        (wellBehavedUpstream [sampleCandle 3000, sampleCandle 1000, sampleCandle 2000])
        "BTCUSDT" "1d" 5000 (2 : Nat)).outcome = none :=
  getBinanceKlines_no_outcome_of_second_page
    [sampleCandle 3000, sampleCandle 1000, sampleCandle 2000] "BTCUSDT" "1d" 5000 2
    (by decide) (by decide)
    (fun k hk => by
      simp only [List.mem_cons, List.mem_singleton, List.not_mem_nil, or_false] at hk
      rcases hk with rfl | rfl | rfl <;> exact sampleCandle_inRange _ (by decide) (by decide))
    (by decide)

/-- Two renderings by `formatInt`. -/
theorem formatInt_examples : formatInt (-15) = "-15" ∧ formatInt 0 = "0" := by
  decide

/-! ## Malformed page elements -/

theorem index_nil (i : Nat) : index [] i = .error .indexOutOfRange := by
  simp [index]

theorem index_cons_zero (v : JSONValue) (k : List JSONValue) : index (v :: k) 0 = .ok v := by
  simp [index]

theorem index_cons_succ (v : JSONValue) (k : List JSONValue) (i : Nat) :
    index (v :: k) (i + 1) = index k i := by
  simp [index]

theorem assertFloat64_ok (v : JSONValue) (x : Int) (h : assertFloat64 v = .ok x) :
    v = .number x := by
  cases v <;> simp [assertFloat64] at h
  rw [h]

theorem assertString_ok (v : JSONValue) (s : String) (h : assertString v = .ok s) :
    v = .string s := by
  cases v <;> simp [assertString] at h
  rw [h]

theorem index_ok (k : List JSONValue) (i : Nat) (v : JSONValue) (h : index k i = .ok v) :
    k.get? i = some v := by
  unfold index at h
  cases hg : k.get? i with
  | none => rw [hg] at h; simp at h
  | some w => rw [hg] at h; simp at h; rw [h]

theorem bind_ok {α β : Type} (x : Except Panic α) (f : α → Except Panic β) (b : β)
    (h : x >>= f = .ok b) : ∃ a, x = .ok a ∧ f a = .ok b := by
  cases x with
  | error p => simp [bind, Except.bind] at h
  | ok a => exact ⟨a, rfl, h⟩

theorem decodeKline_ok_wellformed (k : List JSONValue) (kline : Kline)
    (h : decodeKline k = .ok kline) : malformed k = false := by
  unfold decodeKline at h
  obtain ⟨v0, hi0, h⟩ := bind_ok _ _ _ h
  obtain ⟨x0, ha0, h⟩ := bind_ok _ _ _ h
  obtain ⟨v1, hi1, h⟩ := bind_ok _ _ _ h
  obtain ⟨x1, ha1, h⟩ := bind_ok _ _ _ h
  obtain ⟨v2, hi2, h⟩ := bind_ok _ _ _ h
  obtain ⟨x2, ha2, h⟩ := bind_ok _ _ _ h
  obtain ⟨v3, hi3, h⟩ := bind_ok _ _ _ h
  obtain ⟨x3, ha3, h⟩ := bind_ok _ _ _ h
  obtain ⟨v4, hi4, h⟩ := bind_ok _ _ _ h
  obtain ⟨x4, ha4, h⟩ := bind_ok _ _ _ h
  obtain ⟨v5, hi5, h⟩ := bind_ok _ _ _ h
  obtain ⟨x5, ha5, h⟩ := bind_ok _ _ _ h
  obtain ⟨v6, hi6, h⟩ := bind_ok _ _ _ h
  obtain ⟨x6, ha6, h⟩ := bind_ok _ _ _ h
  obtain ⟨v7, hi7, h⟩ := bind_ok _ _ _ h
  obtain ⟨x7, ha7, h⟩ := bind_ok _ _ _ h
  obtain ⟨v8, hi8, h⟩ := bind_ok _ _ _ h
  obtain ⟨x8, ha8, h⟩ := bind_ok _ _ _ h
  obtain ⟨v9, hi9, h⟩ := bind_ok _ _ _ h
  obtain ⟨x9, ha9, h⟩ := bind_ok _ _ _ h
  obtain ⟨v10, hi10, h⟩ := bind_ok _ _ _ h
  obtain ⟨x10, ha10, h⟩ := bind_ok _ _ _ h
  obtain ⟨v11, hi11, h⟩ := bind_ok _ _ _ h
  obtain ⟨x11, ha11, h⟩ := bind_ok _ _ _ h
  have g0 := index_ok _ _ _ hi0
  have g1 := index_ok _ _ _ hi1
  have g2 := index_ok _ _ _ hi2
  have g3 := index_ok _ _ _ hi3
  have g4 := index_ok _ _ _ hi4
  have g5 := index_ok _ _ _ hi5
  have g6 := index_ok _ _ _ hi6
  have g7 := index_ok _ _ _ hi7
  have g8 := index_ok _ _ _ hi8
  have g9 := index_ok _ _ _ hi9
  have g10 := index_ok _ _ _ hi10
  have g11 := index_ok _ _ _ hi11
  rw [assertFloat64_ok _ _ ha0] at g0
  rw [assertString_ok _ _ ha1] at g1
  rw [assertString_ok _ _ ha2] at g2
  rw [assertString_ok _ _ ha3] at g3
  rw [assertString_ok _ _ ha4] at g4
  rw [assertString_ok _ _ ha5] at g5
  rw [assertFloat64_ok _ _ ha6] at g6
  rw [assertString_ok _ _ ha7] at g7
  rw [assertFloat64_ok _ _ ha8] at g8
  rw [assertString_ok _ _ ha9] at g9
  rw [assertString_ok _ _ ha10] at g10
  rw [assertString_ok _ _ ha11] at g11
  simp only [List.get?_eq_getElem?] at g0 g1 g2 g3 g4 g5 g6 g7 g8 g9 g10 g11
  simp [malformed, List.range_succ, g0, g1, g2, g3, g4, g5, g6, g7, g8, g9, g10, g11,
    expectedType, isNumber, isString]

theorem appendDecoded_malformed :
    ∀ (klines : List (List JSONValue)) (allKlines : List Kline),
      (∃ k ∈ klines, malformed k = true) → ∃ p, appendDecoded allKlines klines = .error p := by
  intro klines
  induction klines with
  | nil => intro allKlines h; simp at h
  | cons k rest ih =>
    intro allKlines h
    rw [appendDecoded]
    cases hk : decodeKline k with
    | error p => exact ⟨p, rfl⟩
    | ok kline =>
      have hgood := decodeKline_ok_wellformed k kline hk
      obtain ⟨bad, hmem, hbad⟩ := h
      rw [List.mem_cons] at hmem
      rcases hmem with rfl | hrest
      · rw [hgood] at hbad
        exact Bool.noConfusion hbad
      · exact ih _ ⟨bad, hrest, hbad⟩

/-- Whenever the first page has a malformed element, `getBinanceKlines` panics. -/
theorem getBinanceKlines_panics_of_malformed (upstream : Upstream) (symbol interval : String)
    (endTime fetchLimit : Int) (fuel : Nat) (status : String) (klines : List (List JSONValue))
    (hresp : upstream 0 ⟨symbol, interval, endTime, fetchLimit⟩ =
      .response 200 status (.decoded klines))
    (hbad : ∃ k ∈ klines, malformed k = true) :
    ∃ p, getBinanceKlines (fuel + 1) upstream symbol interval endTime fetchLimit =
      { requests := [⟨symbol, interval, endTime, fetchLimit⟩], outcome := some (.panicked p) } := by
  obtain ⟨p, hp⟩ := appendDecoded_malformed klines [] hbad
  have hlen : klines.length ≠ 0 := by
    obtain ⟨k, hk, -⟩ := hbad
    exact fun h => List.not_mem_nil k (List.length_eq_zero.mp h ▸ hk)
  refine ⟨p, ?_⟩
  unfold getBinanceKlines
  rw [getBinanceKlinesLoop]
  simp only [hresp, ne_eq, not_true_eq_false, if_false, hlen, hp]

/-! ## Completed series -/

theorem eligible_strict (candles : List Kline) (cursor : Int)
    (hdistinct : (candles.map (fun k => k.OpenTime)).Nodup) :
    (eligible candles cursor).Pairwise (fun a b => a.OpenTime < b.OpenTime) := by
  have hnodup : ((eligible candles cursor).map (fun k => k.OpenTime)).Nodup := by
    have hperm : ((eligible candles cursor).map (fun k => k.OpenTime)).Perm
        ((candles.filter (fun k => decide (k.OpenTime ≤ cursor))).map (fun k => k.OpenTime)) :=
      (List.perm_insertionSort _ _).map _
    rw [hperm.nodup_iff]
    exact hdistinct.sublist ((List.filter_sublist candles).map _)
  rw [List.Nodup, List.pairwise_map] at hnodup
  exact ((eligible_sorted candles cursor).and hnodup).imp (fun h => lt_of_le_of_ne h.1 h.2)

/-- A page of the well-behaved upstream holds candles with strictly increasing
`openTime`, all at most the cursor. -/
theorem servePage_strict (candles : List Kline) (cursor n : Int)
    (hdistinct : (candles.map (fun k => k.OpenTime)).Nodup) :
    (servePage candles cursor n).Pairwise (fun a b => a.OpenTime < b.OpenTime) := by
  unfold servePage
  exact (eligible_strict candles cursor hdistinct).sublist (List.drop_sublist _ _)

/-- Once a run has an outcome, more fuel does not change it. -/
theorem getBinanceKlinesLoop_mono (upstream : Upstream) (symbol interval : String)
    (fetchLimit : Int) :
    ∀ (fuel sent : Nat) (allKlines : List Kline) (currentTime : Int),
      (getBinanceKlinesLoop upstream symbol interval fetchLimit fuel sent allKlines
        currentTime).outcome ≠ none →
      ∀ k : Nat,
        getBinanceKlinesLoop upstream symbol interval fetchLimit (fuel + k) sent allKlines
            currentTime =
          getBinanceKlinesLoop upstream symbol interval fetchLimit fuel sent allKlines
            currentTime := by
  intro fuel
  induction fuel with
  | zero => intro sent allKlines currentTime h; simp [getBinanceKlinesLoop] at h
  | succ f ih =>
    intro sent allKlines currentTime h k
    rw [show f + 1 + k = (f + k) + 1 by omega]
    rw [getBinanceKlinesLoop] at h
    rw [getBinanceKlinesLoop, getBinanceKlinesLoop]
    cases hresp : upstream sent ⟨symbol, interval, currentTime, fetchLimit⟩ with
    | transportError err => rfl
    | response statusCode status body =>
      simp only [hresp] at h ⊢
      by_cases hcode : statusCode = 200
      · subst hcode
        simp only [ne_eq, not_true_eq_false, if_false] at h ⊢
        cases body with
        | unreadable err => rfl
        | undecodable err => rfl
        | decoded klines =>
          simp only at h ⊢
          by_cases hlen : klines.length = 0
          · simp only [hlen, if_true]
          · simp only [hlen, if_false] at h ⊢
            cases hdec : appendDecoded allKlines klines with
            | error p => rfl
            | ok all =>
              simp only [hdec] at h ⊢
              cases all with
              | nil => rfl
              | cons first tail =>
                simp only [Run.after] at h ⊢
                rw [ih _ _ _ h k]
      · simp only [ne_eq, hcode, not_false_eq_true, if_true]

/-- C7: every page `withdrawingUpstream` answers holds candles with strictly increasing
`openTime`, all at most the requested cursor, and is decoded as it stands; yet, with
`endTime = 5000` and `pageSize = 1`, `getBinanceKlines` completes after four requests
(cursors 5000, 1999, 1999, 1999) and returns the candles opening at 2000, 1000 and 1000:
the candle 1000 is in the series twice, because the cursor is taken from `allKlines[0]`
and the page before 1999 is fetched twice. -/
theorem getBinanceKlines_returns_duplicate_openTime :
    (∀ (sent : Nat) (req : Request), ∃ page : List Kline,
      withdrawingUpstream sent req =
        .response 200 "200 OK" (.decoded (page.map encodeKline)) ∧
      appendDecoded [] (page.map encodeKline) = .ok page ∧
      page.Pairwise (fun a b => a.OpenTime < b.OpenTime) ∧
      ∀ k ∈ page, k.OpenTime ≤ req.endTime) ∧
    (∀ k : Nat, getBinanceKlines (4 + k) withdrawingUpstream "BTCUSDT" "1d" 5000 1 =
      { requests := [
          { symbol := "BTCUSDT", interval := "1d", endTime := 5000, limit := 1 },
          { symbol := "BTCUSDT", interval := "1d", endTime := 1999, limit := 1 },
          { symbol := "BTCUSDT", interval := "1d", endTime := 1999, limit := 1 },
          { symbol := "BTCUSDT", interval := "1d", endTime := 1999, limit := 1 }]
        outcome := some (.returned
          [sampleCandle 2000, sampleCandle 1000, sampleCandle 1000]) }) ∧
    ¬ ([sampleCandle 2000, sampleCandle 1000, sampleCandle 1000].map
      (fun k => k.OpenTime)).Nodup := by
  refine ⟨?_, ?_, by decide⟩
  · intro sent req
    have key : ∀ candles : List Kline, (candles.map (fun k => k.OpenTime)).Nodup →
        (∀ k ∈ candles, k.InRange) →
        appendDecoded [] ((servePage candles req.endTime req.limit).map encodeKline) =
          .ok (servePage candles req.endTime req.limit) ∧
        (servePage candles req.endTime req.limit).Pairwise
          (fun a b => a.OpenTime < b.OpenTime) ∧
        ∀ k ∈ servePage candles req.endTime req.limit, k.OpenTime ≤ req.endTime := by
      intro candles hd hr
      refine ⟨?_, servePage_strict candles _ _ hd,
        fun k hk => (servePage_subset candles _ _ k hk).2⟩
      rw [appendDecoded_encode _ [] (fun k hk => hr k (servePage_subset candles _ _ k hk).1)]
      rfl
    by_cases h3 : sent < 3
    · refine ⟨servePage [sampleCandle 1000, sampleCandle 2000] req.endTime req.limit, ?_,
        key _ (by decide) ?_⟩
      · simp only [withdrawingUpstream, h3, if_true, wellBehavedUpstream]
      · intro k hk
        simp only [List.mem_cons, List.mem_singleton, List.not_mem_nil, or_false] at hk
        rcases hk with rfl | rfl <;> exact sampleCandle_inRange _ (by decide) (by decide)
    · refine ⟨servePage [] req.endTime req.limit, ?_, key _ (by decide) ?_⟩
      · simp only [withdrawingUpstream, h3, if_false, wellBehavedUpstream]
      · intro k hk
        exact absurd hk (List.not_mem_nil k)
  · intro k
    unfold getBinanceKlines
    rw [getBinanceKlinesLoop_mono withdrawingUpstream "BTCUSDT" "1d" 1 4 0 [] 5000 (by decide) k]
    decide

end CrawlFromApi
